import Mathlib

/-!
# Verification of the Bedrock router service (services/router/main.py)

A shallow embedding of the router request plane in Lean 4:

* Python `int(...)` string coercion and semver parsing (`_parse_semver`);
* the version-gate middleware (426 rejections);
* the OpenAI -> Converse request translator (`translate_openai_to_converse`,
  `_translate_content`), including the tool-result role merge and the
  tool-config synthesis from history;
* the Converse -> OpenAI response translator (`translate_converse_to_openai`,
  `_build_usage`, `_map_stop_reason`);
* the SSE streaming handler (`handle_anthropic_streaming`) as a pure function
  from the Converse event list to the emitted frame list;
* the API-key store, validation cache, authentication middleware, and the
  create / revoke key-lifecycle handlers;
* the middleware chain as configured in `web.Application(middlewares=[...])`
  (first middleware outermost, per aiohttp).

Modelling conventions:

* Dynamic JSON request/response fields are a `JVal` inductive (JSON numbers
  restricted to integers; floating point is out of scope).
* External library primitives that the router merely calls (json.loads /
  json.dumps on arbitrary objects, SHA-256, base64 decoding, JWT payload
  decoding, uuid generation) are parameters of the embedding, bundled in
  `PyEnv` or passed explicitly; nothing proved here depends on their values.
* Timestamps (`time.time()`, `datetime`) are modelled as integers with the
  usual order; isoformat round-trips are order preserving.
* Logging, asyncio scheduling and the executor are side effects with no
  bearing on responses and are dropped.
-/

namespace Router

/-- JSON-like values used for dynamic request/response fields.
JSON numbers are restricted to integers (no claim involves floats). -/
inductive JVal where
  | null
  | bool (b : Bool)
  | num (n : Int)
  | str (s : String)
  | arr (xs : List JVal)
  | obj (kvs : List (String × JVal))

/-! String helpers defined by structural recursion on the character
list, so that every definition below evaluates by kernel reduction
(`decide` / `rfl`); they agree with the Python `str` methods used by
the router. -/

def splitCharAux (sep : Char) : List Char → List Char → List (List Char)
  | [], acc => [acc.reverse]
  | c :: cs, acc =>
      if c = sep then acc.reverse :: splitCharAux sep cs []
      else splitCharAux sep cs (c :: acc)

/-- Python `s.split(sep)` for a one-character separator. -/
def splitOnChar (sep : Char) (s : String) : List String :=
  (splitCharAux sep s.data []).map String.mk

/-- Python `sep.join(parts)` for a one-character separator (used to
model `split(sep, maxsplit)` keeping later separators). -/
def joinWith (sep : Char) : List String → String
  | [] => ""
  | [x] => x
  | x :: xs => x ++ String.mk [sep] ++ joinWith sep xs

/-- Whitespace stripping as done by Python `int(s)` (ASCII model). -/
def pyStrip (s : String) : String :=
  String.mk (((s.data.dropWhile Char.isWhitespace).reverse.dropWhile Char.isWhitespace).reverse)

def strTake (s : String) (n : Nat) : String := String.mk (s.data.take n)

def strDrop (s : String) (n : Nat) : String := String.mk (s.data.drop n)

/-- Python `s.startswith(pre)`. -/
def strStartsWith (s pre : String) : Bool := pre.data.isPrefixOf s.data

def listContainsSub [BEq α] (pat : List α) : List α → Bool
  | [] => pat.isEmpty
  | x :: xs => pat.isPrefixOf (x :: xs) || listContainsSub pat xs

/-- Python `pat in s` for strings. -/
def strContainsSub (s pat : String) : Bool := listContainsSub pat.data s.data

/-- Digit-string parsing used by Python `int(str)`: first char must be a
digit, later chars are digits with single underscores allowed between
digits (CPython grammar, ASCII digits). -/
def pyDigits : Nat → List Char → Option Nat
  | acc, [] => some acc
  | acc, '_' :: c :: rest =>
      if c.isDigit then pyDigits (acc * 10 + (c.toNat - 48)) rest else none
  | acc, c :: rest =>
      if c.isDigit then pyDigits (acc * 10 + (c.toNat - 48)) rest else none

/-- Python `int(s)` for strings: strip whitespace, optional sign, digits
(with underscores between digits). Returns `none` on `ValueError`. -/
def pyStrToInt (s : String) : Option Int :=
  let t := pyStrip s
  match t.data with
  | [] => none
  | '+' :: rest =>
      match rest with
      | [] => none
      | c :: cs => if c.isDigit then (pyDigits (c.toNat - 48) cs).map Int.ofNat else none
  | '-' :: rest =>
      match rest with
      | [] => none
      | c :: cs => if c.isDigit then (pyDigits (c.toNat - 48) cs).map (fun n => -(Int.ofNat n)) else none
  | c :: cs => if c.isDigit then (pyDigits (c.toNat - 48) cs).map Int.ofNat else none

/-- Python `int(value)` over JSON values, as used on `expires_in_days`:
ints pass through, bools coerce to 0/1, strings parse, everything else
raises (`TypeError` for null/arrays/objects). -/
def pyIntCoerce : JVal → Option Int
  | .num n => some n
  | .bool b => some (if b then 1 else 0)
  | .str s => pyStrToInt s
  | _ => none

/-- Python `split(".", 2)`: at most three parts, the third keeps later dots. -/
def splitDot2 (s : String) : List String :=
  match splitOnChar '.' s with
  | a :: b :: c :: rest => [a, b, joinWith '.' (c :: rest)]
  | xs => xs

/-- `_parse_semver`: strip leading `v`s, split into exactly three dot
parts, drop pre-release/build suffixes from the patch, parse ints. -/
def _parse_semver (v : String) : Option (Int × Int × Int) :=
  let v := String.mk (v.data.dropWhile (· = 'v'))
  match splitDot2 v with
  | [maj, min, patch] =>
      let patchStr := ((splitOnChar '+' ((splitOnChar '-' patch).headD "")).headD "")
      match pyStrToInt maj, pyStrToInt min, pyStrToInt patchStr with
      | some a, some b, some c => some (a, b, c)
      | _, _, _ => none
  | _ => none

/-- Python tuple `<` on `(major, minor, patch)`: lexicographic. -/
def semverLt (a b : Int × Int × Int) : Bool :=
  a.1 < b.1 || (a.1 = b.1 && (a.2.1 < b.2.1 || (a.2.1 = b.2.1 && a.2.2 < b.2.2)))

/-- JSON body of the 426 rejection built by `version_gate_middleware`. -/
structure VersionErrorBody where
  message : String
  type : String
  code : String
  minimum_version : String
  your_version : String
  update_command : String
deriving Repr, DecidableEq

/-- Decision of the version gate: pass the request to the inner handler,
or short-circuit with the 426 body. -/
inductive GateDecision where
  | pass
  | reject (body : VersionErrorBody)
deriving Repr, DecidableEq

/-- Paths the version gate skips. -/
def versionGateBypass (path : String) : Bool :=
  path = "/health" || path = "/ready" || strStartsWith path "/health/"
    || strStartsWith path "/v1/update/"

/-- The hint appended to the 426 message when a distribution domain is set. -/
def downloadHint (distributionDomain : String) : String :=
  if distributionDomain = "" then ""
  else "\nOr download the latest installer from:\n\n  https://" ++ distributionDomain

/-- The 426 body as built by the middleware. -/
def mkVersionErrorBody (clientVersion minV distributionDomain : String) :
    VersionErrorBody :=
  { message :=
      "Your opencode-auth client (v" ++ clientVersion
        ++ ") is below the minimum required version (v" ++ minV
        ++ "). Run the following to update:\n\n  opencode-auth update && oc"
        ++ downloadHint distributionDomain
    type := "version_error"
    code := "client_outdated"
    minimum_version := minV
    your_version := clientVersion
    update_command := "opencode-auth update && oc" }

/-- `version_gate_middleware` decision logic. `clientVersion` is
`request.headers.get("X-Client-Version", "")`; `minimum` is the cached
policy value (`none` models Python `None`, `some ""` an empty manifest). -/
def versionGate (path clientVersion : String) (minimum : Option String)
    (distributionDomain : String) : GateDecision :=
  if versionGateBypass path then .pass
  else if clientVersion = "" then .pass
  else if clientVersion = "dev" then .pass
  else
    match minimum with
    | none => .pass
    | some minV =>
        if minV = "" then .pass
        else
          match _parse_semver clientVersion, _parse_semver minV with
          | some clientParsed, some minParsed =>
              if semverLt clientParsed minParsed then
                .reject (mkVersionErrorBody clientVersion minV distributionDomain)
              else .pass
          | _, _ => .pass

/-- An OpenAI `tool_calls[i]` entry; fields are read with
`tc.get("id", "")`, `fn.get("name", "")`, `fn.get("arguments", "{}")`,
so the defaults are applied at construction. -/
structure OAToolCall where
  id : String
  name : String
  arguments : String

/-- One element of an OpenAI content parts array. The flag on
`textPart` is the truthiness of `part.get("cache_control")`; parts of
other types are skipped by the translator. -/
inductive OAPart where
  | strPart (s : String)
  | textPart (text : String) (cacheControl : Bool)
  | imagePart (url : String)
  | otherPart

/-- An OpenAI message `content` value: a string, a parts array, or any
other Python value (carrying its `str()` rendering and truthiness). -/
inductive OAContent where
  | ofStr (s : String)
  | ofParts (ps : List OAPart)
  | other (pyStr : String) (truthy : Bool)

/-- An OpenAI chat message, fields as read by the translator:
`msg.get("role", "")`, `msg.get("content", "")`, `"tool_calls" in msg`,
`msg.get("tool_call_id", "")`. -/
structure OAMsg where
  role : String
  content : OAContent
  tool_calls : Option (List OAToolCall) := none
  tool_call_id : String := ""

/-- External library primitives the router calls; the embedding is
parametric in them (nothing proved depends on their values).
`dumpContent`/`dumpOther` model `json.dumps` applied to a non-string
tool-message content (a parts array or any other value via its `str()`
rendering); `jloads`/`jdumps` model `json.loads`/`json.dumps` of a tool
input; `b64decode` returns the decoded bytes as an opaque string;
`decodeJwt` models `decode_jwt_payload` plus extraction of `sub`/`email`
(`none` when the payload fails to decode). -/
structure PyEnv where
  jloads : String → Option JVal
  jdumps : JVal → String
  dumpContent : List OAPart → String
  dumpOther : String → String
  b64decode : String → String
  sha256Hex : String → String
  decodeJwt : String → Option (String × String)

/-- A Converse content block. The content of `toolResult` models
`[{"text": result_content}]`; image bytes stay opaque. -/
inductive CBlock where
  | text (s : String)
  | image (format : String) (bytes : String)
  | toolUse (toolUseId name : String) (input : JVal)
  | toolResult (toolUseId : String) (content : String)
  | cachePoint

/-- A canonical (Converse-shaped) message. -/
structure CMsg where
  role : String
  content : List CBlock

/-- An entry of `toolConfig.tools`: either a `toolSpec` (with
`inputSchemaJson` the value under `inputSchema.json`) or a
`cachePoint` sentinel. -/
inductive ToolEntry where
  | spec (name description : String) (inputSchemaJson : JVal)
  | cachePoint

/-- `ToolEntry.name`, `""` for a cache point. -/
def ToolEntry.specName : ToolEntry → String
  | .spec n _ _ => n
  | .cachePoint => ""

/-- An entry of the request-body `tools` array, fields as read by the
translator (`tool.get("type")`, `fn["name"]`, `fn.get("description", "")`,
`fn.get("parameters", {})`). -/
structure OATool where
  type : String
  name : String
  description : String := ""
  parameters : JVal := .obj []

/-- An OpenAI chat-completion request body, restricted to the keys the
translator reads. `reasoning_effort_truthy` is the truthiness of
`body.get("reasoning_effort")`; `thinking` is the `"thinking"` dict
when that key is present. -/
structure OABody where
  model : String
  messages : List OAMsg
  max_tokens : Option JVal := none
  temperature : Option JVal := none
  top_p : Option JVal := none
  stop : Option JVal := none
  tools : Option (List OATool) := none
  reasoning_effort_truthy : Bool := false
  thinking : Option (List (String × JVal)) := none

/-- The Converse invocation parameters built by the translator.
`thinkingBudget` is `additionalModelRequestFields.thinking.budget_tokens`
when the thinking block is emitted. -/
structure ConverseParams where
  modelId : String
  messages : List CMsg
  system : Option (List CBlock)
  inferenceConfig : Option (List (String × JVal))
  toolConfig : Option (List ToolEntry)
  thinkingBudget : Option JVal

/-- One part of the parts loop in `_translate_content`. Returns `none` for
the uncaught `ValueError` raised by `url_data.split(",", 1)` unpacking
when a `data:` URL has no comma. -/
def translatePart (env : PyEnv) : OAPart → Option (List CBlock)
  | .strPart s => some [.text s]
  | .textPart t cc => some (if cc then [.text t, .cachePoint] else [.text t])
  | .imagePart url =>
      if strStartsWith url "data:" then
        match splitOnChar ',' url with
        | [] => none
        | [_] => none
        | header :: rest =>
            let b64data := joinWith ',' rest
            let mediaType := ((splitOnChar ';' ((splitOnChar ':' header).getD 1 "")).headD "")
            let fmt := (splitOnChar '/' mediaType).getLastD ""
            let fmt := if fmt = "jpg" then "jpeg" else fmt
            some [.image fmt (env.b64decode b64data)]
      else some [.text ("[Image URL: " ++ url ++ "]")]
  | .otherPart => some []

/-- The parts loop of `_translate_content`. -/
def translateParts (env : PyEnv) : List OAPart → Option (List CBlock)
  | [] => some []
  | p :: ps => do pure ((← translatePart env p) ++ (← translateParts env ps))

/-- `_translate_content`. -/
def _translate_content (env : PyEnv) : OAContent → Option (List CBlock)
  | .ofStr s => some [.text s]
  | .ofParts ps => do
      let blocks ← translateParts env ps
      pure (if blocks.isEmpty then [.text ""] else blocks)
  | .other pyStr truthy => some (if truthy then [.text pyStr] else [.text ""])

/-- System-message handling: string content appends one text block;
array content appends its string parts and `type == "text"` parts. -/
def systemBlocksOf : OAContent → List CBlock
  | .ofStr s => [.text s]
  | .ofParts ps =>
      ps.filterMap fun
        | .strPart s => some (.text s)
        | .textPart t _ => some (.text t)
        | _ => none
  | .other _ _ => []

/-- `result_content` of a tool message: the content itself when it is a
string, else its `json.dumps` rendering. -/
def toolResultText (env : PyEnv) : OAContent → String
  | .ofStr s => s
  | .ofParts ps => env.dumpContent ps
  | .other pyStr _ => env.dumpOther pyStr

/-- A blank text block (`"text" in b and not b["text"]`), stripped from
assistant content that carries tool calls. -/
def isBlankText : CBlock → Bool
  | .text s => s = ""
  | _ => false

/-- Build a `toolUse` block from an OpenAI tool call: parse the
arguments string as JSON, falling back to `{"raw": <original>}`. -/
def toolUseOfCall (env : PyEnv) (tc : OAToolCall) : CBlock :=
  let input := match env.jloads tc.arguments with
    | some v => v
    | none => .obj [("raw", .str tc.arguments)]
  .toolUse tc.id tc.name input

/-- The `toolResult` content block built for one `role="tool"` message. -/
def toolResultBlockOf (env : PyEnv) (msg : OAMsg) : CBlock :=
  .toolResult msg.tool_call_id (toolResultText env msg.content)

/-- One iteration of the message loop of `translate_openai_to_converse`;
the state is `(system_blocks, converse_messages)`. -/
def stepMsg (env : PyEnv) (st : List CBlock × List CMsg) (msg : OAMsg) :
    Option (List CBlock × List CMsg) :=
  let (sys, cms) := st
  if msg.role = "system" then
    some (sys ++ systemBlocksOf msg.content, cms)
  else if msg.role = "tool" then
    let blk : CBlock := toolResultBlockOf env msg
    match cms.getLast? with
    | some last =>
        if last.role = "user" then
          some (sys, cms.dropLast ++ [{ last with content := last.content ++ [blk] }])
        else
          some (sys, cms ++ [⟨"user", [blk]⟩])
    | none => some (sys, cms ++ [⟨"user", [blk]⟩])
  else do
    let cc ← _translate_content env msg.content
    let cc :=
      match msg.tool_calls with
      | some tcs =>
          if msg.role = "assistant" then
            (cc.filter fun b => !isBlankText b) ++ tcs.map (toolUseOfCall env)
          else cc
      | none => cc
    pure (sys, cms ++ [⟨msg.role, cc⟩])

/-- The message loop of `translate_openai_to_converse`. -/
def foldMsgs (env : PyEnv) :
    List CBlock × List CMsg → List OAMsg → Option (List CBlock × List CMsg)
  | st, [] => some st
  | st, m :: ms => do foldMsgs env (← stepMsg env st m) ms

/-- The `inferenceConfig` dict, built in source order; a scalar `stop`
string is wrapped in a one-element list. -/
def inferenceConfigOf (b : OABody) : List (String × JVal) :=
  (match b.max_tokens with | some v => [("maxTokens", v)] | none => [])
    ++ (match b.temperature with | some v => [("temperature", v)] | none => [])
    ++ (match b.top_p with | some v => [("topP", v)] | none => [])
    ++ (match b.stop with
        | some (.str s) => [("stopSequences", .arr [.str s])]
        | some v => [("stopSequences", v)]
        | none => [])

/-- The `seen_tool_names` set update for one block: a `toolUse` adds its
name, a `toolResult` runs `seen_tool_names.discard("")`. The set is a
deduplicated list in first-seen order. -/
def seenStep (seen : List String) : CBlock → List String
  | .toolUse _ name _ => if name ∈ seen then seen else seen ++ [name]
  | .toolResult _ _ => seen.filter (· ≠ "")
  | _ => seen

/-- `seen_tool_names` after scanning the translated history. -/
def collectToolNames (cms : List CMsg) : List String :=
  cms.foldl (fun seen cm => cm.content.foldl seenStep seen) []

/-- Specification helper: the names carried by `toolUse` blocks, in
order of occurrence (with duplicates). -/
def toolUseNames (bs : List CBlock) : List String :=
  bs.filterMap fun b =>
    match b with
    | .toolUse _ n _ => some n
    | _ => none

/-- Specification helper: all content blocks of a message history. -/
def allBlocks (cms : List CMsg) : List CBlock :=
  (cms.map CMsg.content).flatten

/-- The synthesized minimal `toolConfig.tools` list: one `toolSpec` per
nonempty name in sorted order, plus a cache point when enabled. -/
def synthToolEntries (enableCache : Bool) (names : List String) : List ToolEntry :=
  let entries := ((names.mergeSort (fun a b => decide (a ≤ b))).filter (· ≠ "")).map
    (fun n => ToolEntry.spec n "Tool from conversation history" (.obj [("type", .str "object")]))
  if enableCache then entries ++ [.cachePoint] else entries

/-- `translate_openai_to_converse`. Returns `none` when `_translate_content`
raises (malformed `data:` URL). -/
def translate_openai_to_converse (env : PyEnv) (body : OABody)
    (enableCache : Bool := false) : Option ConverseParams := do
  let (sysBlocks, cms) ← foldMsgs env ([], []) body.messages
  let sys : Option (List CBlock) :=
    if sysBlocks.isEmpty then none
    else some (if enableCache then sysBlocks ++ [.cachePoint] else sysBlocks)
  let inf := inferenceConfigOf body
  let toolCfg : Option (List ToolEntry) :=
    match body.tools with
    | some ts =>
        let specs := ts.filterMap fun t =>
          if t.type = "function" then
            some (ToolEntry.spec t.name t.description t.parameters)
          else none
        if specs.isEmpty then none
        else some (if enableCache then specs ++ [.cachePoint] else specs)
    | none => none
  let toolCfg : Option (List ToolEntry) :=
    match toolCfg with
    | some tc => some tc
    | none =>
        let names := collectToolNames cms
        if names.isEmpty then none
        else some (synthToolEntries enableCache names)
  let thinkingOn := body.reasoning_effort_truthy
    || (match body.thinking with | some kvs => !kvs.isEmpty | none => false)
  let budget : Option JVal :=
    if thinkingOn then
      some ((((body.thinking.getD []).find? (fun kv => kv.1 = "budget_tokens")).map
        (·.2)).getD (.num 10000))
    else none
  pure { modelId := body.model
         messages := cms
         system := sys
         inferenceConfig := if inf.isEmpty then none else some inf
         toolConfig := toolCfg
         thinkingBudget := budget }

/-- A content block of a Converse response message, as tagged by the
key tests of the translator (`"text" in block`, `"reasoningContent" in block`
with or without `reasoningText`, `"toolUse" in block`, anything else). -/
inductive RBlock where
  | text (s : String)
  | reasoningText (s : String)
  | reasoningOther
  | toolUse (toolUseId name : Option String) (input : Option JVal)
  | other

/-- Converse `usage` dict; `none` models an absent key (read with
`.get(_, 0)`). -/
structure ConverseUsage where
  inputTokens : Option Int := none
  outputTokens : Option Int := none
  cacheReadInputTokens : Option Int := none
  cacheWriteInputTokens : Option Int := none

/-- A Converse unary response, restricted to the keys the translator
reads: `output.message.content`, `usage`, `stopReason` (`none` models an
absent key, read with `.get("stopReason", "end_turn")`). -/
structure ConverseResponse where
  content : List RBlock
  usage : ConverseUsage := {}
  stopReason : Option String := none

/-- The OpenAI `usage` object built by `_build_usage`; the three cache
fields are `none` exactly when omitted from the dict. -/
structure UsageOut where
  prompt_tokens : Int
  completion_tokens : Int
  total_tokens : Int
  cached_tokens_detail : Option Int
  cache_read_input_tokens : Option Int
  cache_creation_input_tokens : Option Int
deriving Repr, DecidableEq

/-- `_build_usage`. -/
def _build_usage (u : ConverseUsage) : UsageOut :=
  let promptTok := u.inputTokens.getD 0
  let completionTok := u.outputTokens.getD 0
  let cacheRead := u.cacheReadInputTokens.getD 0
  let cacheWrite := u.cacheWriteInputTokens.getD 0
  if cacheRead ≠ 0 ∨ cacheWrite ≠ 0 then
    { prompt_tokens := promptTok, completion_tokens := completionTok
      total_tokens := promptTok + completionTok
      cached_tokens_detail := some cacheRead
      cache_read_input_tokens := some cacheRead
      cache_creation_input_tokens := some cacheWrite }
  else
    { prompt_tokens := promptTok, completion_tokens := completionTok
      total_tokens := promptTok + completionTok
      cached_tokens_detail := none
      cache_read_input_tokens := none
      cache_creation_input_tokens := none }

/-- `_map_stop_reason`. -/
def _map_stop_reason (stopReason : String) : String :=
  if stopReason = "end_turn" then "stop"
  else if stopReason = "stop_sequence" then "stop"
  else if stopReason = "tool_use" then "tool_calls"
  else if stopReason = "max_tokens" then "length"
  else if stopReason = "content_filtered" then "content_filter"
  else "stop"

/-- An emitted `tool_calls[i]` entry of the unary OpenAI response. -/
structure OAIToolCallOut where
  index : Nat
  id : String
  type : String
  name : String
  arguments : String

/-- `choices[0].message` of the unary OpenAI response; optional fields
are `none` exactly when the key is omitted. -/
structure ChoiceMessage where
  role : String
  content : Option String
  reasoning_content : Option String
  tool_calls : Option (List OAIToolCallOut)

/-- The unary OpenAI response envelope (the constant `object` field and
the `created` timestamp are dropped). -/
structure OAIChatResponse where
  id : String
  model : String
  message : ChoiceMessage
  finish_reason : String
  usage : UsageOut

/-- The block loop of `translate_converse_to_openai`: collect text
parts, reasoning parts and tool calls, threading `tool_idx`. -/
def collectRespBlocks (env : PyEnv) (idx : Nat) :
    List RBlock → List String × List String × List OAIToolCallOut
  | [] => ([], [], [])
  | b :: rest =>
      match b with
      | .text s =>
          let (t, r, tc) := collectRespBlocks env idx rest
          (s :: t, r, tc)
      | .reasoningText s =>
          let (t, r, tc) := collectRespBlocks env idx rest
          (t, s :: r, tc)
      | .reasoningOther => collectRespBlocks env idx rest
      | .toolUse id? name? input? =>
          let call : OAIToolCallOut :=
            { index := idx
              id := id?.getD ("call_" ++ toString idx)
              type := "function"
              name := name?.getD ""
              arguments := env.jdumps (input?.getD (.obj [])) }
          let (t, r, tc) := collectRespBlocks env (idx + 1) rest
          (t, r, call :: tc)
      | .other => collectRespBlocks env idx rest

/-- `translate_converse_to_openai`. -/
def translate_converse_to_openai (env : PyEnv) (response : ConverseResponse)
    (model requestId : String) : OAIChatResponse :=
  let (textParts, reasoningParts, toolCalls) := collectRespBlocks env 0 response.content
  let finishReason := _map_stop_reason (response.stopReason.getD "end_turn")
  let finishReason :=
    if ¬toolCalls.isEmpty ∧ finishReason = "stop" then "tool_calls" else finishReason
  { id := "chatcmpl-" ++ requestId
    model := model
    message :=
      { role := "assistant"
        content := if textParts.isEmpty then none
                   else some (String.intercalate "\n" textParts)
        reasoning_content := if reasoningParts.isEmpty then none
                             else some (String.intercalate "\n" reasoningParts)
        tool_calls := if toolCalls.isEmpty then none else some toolCalls }
    finish_reason := finishReason
    usage := _build_usage response.usage }

/-- A `contentBlockDelta.delta` payload, tagged by the key tests of
the handler. -/
inductive DeltaEvent where
  | text (s : String)
  | reasoning (s : String)
  | toolUse (input : String)
  | otherDelta

/-- A Converse stream event, restricted to the keys the handler reads.
the `contentBlockStart` argument is `(toolUseId, name)` (defaults already
applied) when the start carries a `toolUse`; `messageStop` carries
`.get("stopReason", "end_turn")` as an option; the `metadata` argument is
`none` when the usage dict is absent or empty (falsy). -/
inductive CEvent where
  | messageStart
  | contentBlockStart (toolUse? : Option (String × String))
  | contentBlockDelta (delta : DeltaEvent)
  | contentBlockStop
  | messageStop (stopReason : Option String)
  | metadata (usage? : Option ConverseUsage)
  | otherEvent

/-- The `delta` object of an emitted streaming chunk. -/
inductive SSEDelta where
  | roleContent
  | content (s : String)
  | reasoning (s : String)
  | toolCallStart (index : Int) (id name : String)
  | toolCallArgs (index : Int) (arguments : String)
  | empty
deriving Repr, DecidableEq

/-- An emitted streaming chunk (envelope fields `id`, `object`,
`created`, `model` are constant per stream and dropped). -/
structure SSEChunk where
  delta : SSEDelta
  finish_reason : Option String
  usage : Option UsageOut
deriving Repr, DecidableEq

/-- One SSE frame: a chat chunk, the in-band error payload, or the
terminating `data: [DONE]`. -/
inductive SSEFrame where
  | chunk (c : SSEChunk)
  | errorChunk
  | done
deriving Repr, DecidableEq

/-- Frames emitted for one stream event, threading `tool_idx` (which
starts at `-1` and is incremented by each `toolUse` block start). -/
def eventFrames (idx : Int) : CEvent → Int × List SSEFrame
  | .messageStart => (idx, [.chunk ⟨.roleContent, none, none⟩])
  | .contentBlockStart (some (toolUseId, name)) =>
      (idx + 1, [.chunk ⟨.toolCallStart (idx + 1) toolUseId name, none, none⟩])
  | .contentBlockStart none => (idx, [])
  | .contentBlockDelta (.text s) => (idx, [.chunk ⟨.content s, none, none⟩])
  | .contentBlockDelta (.reasoning s) =>
      (idx, if s = "" then [] else [.chunk ⟨.reasoning s, none, none⟩])
  | .contentBlockDelta (.toolUse input) =>
      (idx, if input = "" then [] else [.chunk ⟨.toolCallArgs idx input, none, none⟩])
  | .contentBlockDelta .otherDelta => (idx, [])
  | .contentBlockStop => (idx, [])
  | .messageStop stopReason =>
      (idx, [.chunk ⟨.empty, some (_map_stop_reason (stopReason.getD "end_turn")), none⟩])
  | .metadata none => (idx, [])
  | .metadata (some u) => (idx, [.chunk ⟨.empty, none, some (_build_usage u)⟩])
  | .otherEvent => (idx, [])

/-- The event loop of `handle_anthropic_streaming`. -/
def streamBody (idx : Int) : List CEvent → List SSEFrame
  | [] => []
  | e :: es =>
      let (idx', fs) := eventFrames idx e
      fs ++ streamBody idx' es

/-- `handle_anthropic_streaming` on a stream that completes: the frames
written to the SSE response. `none` models a response without a
`stream` member (only `[DONE]` is written). -/
def handle_anthropic_streaming (stream? : Option (List CEvent)) : List SSEFrame :=
  match stream? with
  | none => [.done]
  | some events => streamBody (-1) events ++ [.done]

/-- `handle_anthropic_streaming` when iteration raises after the first
`k` events: the frames written before the failure, then (when the
response is still writable) one error chunk and `[DONE]`. -/
def handle_anthropic_streaming_failed (events : List CEvent) (k : Nat)
    (writesOk : Bool) : List SSEFrame :=
  streamBody (-1) (events.take k) ++ (if writesOk then [.errorChunk, .done] else [])

/-- A persisted API-key record. `keyPfx` models the `key_prefix`
attribute of the source (renamed; same first-10-chars value). Timestamps
are epoch seconds; `none` models an absent attribute. -/
structure ApiKeyItem where
  key_hash : String
  keyPfx : String
  user_sub : String
  user_email : String
  description : JVal := .str ""
  status : String
  created_at : Int
  expires_at : Option Int
  revoked_at : Option Int := none
  last_used_at : Option Int := none
  ttl : Int

/-- The DynamoDB table, keyed by `key_hash`. -/
abbrev KeyStore := List ApiKeyItem

/-- `_lookup_api_key`: `get_item` on the primary key. -/
def _lookup_api_key (store : KeyStore) (keyHash : String) : Option ApiKeyItem :=
  store.find? (fun it => it.key_hash = keyHash)

/-- `_list_user_keys`: query on the `user-sub-index`. -/
def _list_user_keys (store : KeyStore) (userSub : String) : List ApiKeyItem :=
  store.filter (fun it => it.user_sub = userSub)

/-- `_revoke_api_key`: conditional update setting
`status = "revoked", revoked_at = now` on the record with this hash,
conditioned on `user_sub` matching. -/
def _revoke_api_key (store : KeyStore) (keyHash userSub : String) (now : Int) : KeyStore :=
  store.map fun it =>
    if it.key_hash = keyHash ∧ it.user_sub = userSub then
      { it with status := "revoked", revoked_at := some now }
    else it

/-- An entry of the in-process validation cache. -/
structure CacheEntry where
  user_sub : String
  user_email : String
  cache_expires : Int

/-- The in-process `_api_key_cache` dict. -/
abbrev KeyCache := List (String × CacheEntry)

def cacheGet (c : KeyCache) (k : String) : Option CacheEntry :=
  (c.find? (fun kv => kv.1 = k)).map (·.2)

def cacheSet (c : KeyCache) (k : String) (v : CacheEntry) : KeyCache :=
  (k, v) :: c.filter (fun kv => kv.1 ≠ k)

/-- `_api_key_cache.pop(key_hash, None)`. -/
def cachePop (c : KeyCache) (k : String) : KeyCache :=
  c.filter (fun kv => kv.1 ≠ k)

def _API_KEY_CACHE_TTL : Int := 300

/-- Outcome of API-key validation inside the auth middleware: either an
identity to attach, or a short-circuit error response (status, code). -/
inductive AuthOutcome where
  | allow (sub email : String)
  | deny (status : Nat) (code : String)
deriving Repr, DecidableEq

/-- The store-lookup path of the middleware (cache miss or expired
entry): status check, then expiry check, then cache fill. The DynamoDB
failure branch (500) is an exception path and is not modelled. -/
def validateViaStore (store : KeyStore) (cache : KeyCache) (now : Int)
    (keyHash : String) : AuthOutcome × KeyCache :=
  match _lookup_api_key store keyHash with
  | none => (.deny 401 "invalid_api_key", cache)
  | some item =>
      if item.status ≠ "active" then (.deny 401 "revoked_api_key", cache)
      else
        match item.expires_at with
        | some e =>
            if e < now then (.deny 401 "expired_api_key", cache)
            else
              (.allow item.user_sub item.user_email,
                cacheSet cache keyHash
                  ⟨item.user_sub, item.user_email, now + _API_KEY_CACHE_TTL⟩)
        | none =>
            (.allow item.user_sub item.user_email,
              cacheSet cache keyHash
                ⟨item.user_sub, item.user_email, now + _API_KEY_CACHE_TTL⟩)

/-- Validation of a presented key that passed the `oc_` shape check:
consult the cache, fall back to the store. -/
def validateApiKey (env : PyEnv) (store : KeyStore) (cache : KeyCache)
    (now : Int) (apiKey : String) : AuthOutcome × KeyCache :=
  let keyHash := env.sha256Hex apiKey
  match cacheGet cache keyHash with
  | some ce =>
      if now < ce.cache_expires then (.allow ce.user_sub ce.user_email, cache)
      else validateViaStore store cache now keyHash
  | none => validateViaStore store cache now keyHash

/-- An HTTP request: path, headers, and the per-request context bag the
middlewares fill in. Header lookup is by exact name. -/
structure HttpRequest where
  path : String
  headers : List (String × String)
  request_id : String := ""
  auth_source : String := ""
  user_sub : String := ""
  user_email : String := ""

def headerGet (req : HttpRequest) (name : String) : Option String :=
  (req.headers.find? (fun kv => kv.1 = name)).map (·.2)

/-- An HTTP response, restricted to status and headers (response bodies
are modelled by the decision functions). -/
structure HttpResponse where
  status : Nat
  headers : List (String × String)
deriving Repr, DecidableEq

/-- `response.headers[name] = value`: overwrite-or-add. -/
def setHeader (hs : List (String × String)) (name value : String) :
    List (String × String) :=
  (name, value) :: hs.filter (fun kv => kv.1 ≠ name)

abbrev Handler := HttpRequest → HttpResponse

def lookupHeader (resp : HttpResponse) (name : String) : Option String :=
  (resp.headers.find? (fun kv => kv.1 = name)).map (·.2)

/-- `version_gate_middleware` as a middleware: short-circuit with the
426 response (whose JSON body is modelled by `versionGate`) or invoke
the inner handler. The 426 `web.json_response` sets no extra headers. -/
def version_gate_middleware (minimum : Option String) (distributionDomain : String)
    (next : Handler) (req : HttpRequest) : HttpResponse :=
  match versionGate req.path ((headerGet req "X-Client-Version").getD "") minimum
      distributionDomain with
  | .pass => next req
  | .reject _ => { status := 426, headers := [] }

/-- What `api_key_auth_middleware` does with a request: invoke the
inner handler on a (possibly context-enriched) request, or
short-circuit with a response. -/
inductive AuthDecision where
  | passThrough (req : HttpRequest)
  | short (resp : HttpResponse)

/-- The decision logic of `api_key_auth_middleware`: path bypasses,
then the bearer path (decode claims, attach context, pass), then the
API-key path. The 401 `web.json_response`s set no extra headers. -/
def apiKeyAuthDecide (env : PyEnv) (store : KeyStore) (cache : KeyCache)
    (now : Int) (req : HttpRequest) : AuthDecision :=
  if req.path = "/health" ∨ req.path = "/ready" ∨ strStartsWith req.path "/health/"
      ∨ strStartsWith req.path "/v1/api-keys" ∨ strStartsWith req.path "/v1/update/" then
    .passThrough req
  else
    let authHeader := (headerGet req "Authorization").getD ""
    if strStartsWith authHeader "Bearer " then
      match env.decodeJwt (strDrop authHeader 7) with
      | some (sub, email) =>
          .passThrough { req with auth_source := "jwt", user_sub := sub, user_email := email }
      | none => .passThrough req
    else
      let apiKey := (headerGet req "X-API-Key").getD ""
      if apiKey = "" ∨ ¬strStartsWith apiKey "oc_" then
        .short { status := 401, headers := [] }
      else
        match validateApiKey env store cache now apiKey with
        | (.allow sub email, _) =>
            .passThrough { req with auth_source := "api_key", user_sub := sub, user_email := email }
        | (.deny status _, _) => .short { status := status, headers := [] }

/-- `api_key_auth_middleware`. -/
def api_key_auth_middleware (env : PyEnv) (store : KeyStore) (cache : KeyCache)
    (now : Int) (next : Handler) (req : HttpRequest) : HttpResponse :=
  match apiKeyAuthDecide env store cache now req with
  | .passThrough req' => next req'
  | .short resp => resp

/-- `request_logging_middleware`: assign or inherit the request id,
invoke the handler, echo the id in the response header (the health and
non-health branches act identically on the response). -/
def request_logging_middleware (freshUuid : String) (next : Handler)
    (req : HttpRequest) : HttpResponse :=
  let rid := (headerGet req "X-Request-ID").getD freshUuid
  let resp := next { req with request_id := rid }
  { resp with headers := setHeader resp.headers "X-Request-ID" rid }

/-- The configured chain `middlewares=[version_gate_middleware,
api_key_auth_middleware, request_logging_middleware]`: aiohttp applies
the list in reverse, so the first entry is outermost. -/
def appHandler (env : PyEnv) (store : KeyStore) (cache : KeyCache) (now : Int)
    (minimum : Option String) (distributionDomain : String) (freshUuid : String)
    (routeHandler : Handler) : Handler :=
  version_gate_middleware minimum distributionDomain
    (api_key_auth_middleware env store cache now
      (request_logging_middleware freshUuid routeHandler))

def MAX_KEYS_PER_USER : Nat := 10
def DEFAULT_EXPIRY_DAYS : Int := 90
def MIN_EXPIRY_DAYS : Int := 1
def MAX_EXPIRY_DAYS : Int := 365

/-- Outcome of `create_api_key`. `created` is the 201 path and carries
the item passed to the store put; every other outcome returns before
the put, so no write happens. -/
inductive CreateResult where
  | unauthorized
  | badExpiry (msg : String)
  | conflict (msg : String)
  | created (item : ApiKeyItem) (rawKey : String)

/-- The `expires_in_days` value actually used by `create_api_key`:
`body.get("expires_in_days", 90)`, then `int(...)` with the
`ValueError`/`TypeError` handler falling back to the default. -/
def effectiveExpiresDays (body : List (String × JVal)) : Int :=
  match (body.find? (fun kv => kv.1 = "expires_in_days")).map (·.2) with
  | none => DEFAULT_EXPIRY_DAYS
  | some v =>
      match pyIntCoerce v with
      | some n => n
      | none => DEFAULT_EXPIRY_DAYS

/-- `create_api_key`. `identity` is the bearer identity extracted from
the JWT (`none` when absent, the 401 path); `body` is the parsed JSON
body as an association list (a malformed body is the empty list);
`existing` is the store query result for the caller; `rawKey` is the
generated `oc_…` key and `now` the current time. The store-failure 500
branches (exceptions) are not modelled. -/
def create_api_key (env : PyEnv) (identity : Option (String × String))
    (body : List (String × JVal)) (existing : List ApiKeyItem)
    (rawKey : String) (now : Int) : CreateResult :=
  match identity with
  | none => .unauthorized
  | some (userSub, userEmail) =>
      let description := ((body.find? (fun kv => kv.1 = "description")).map (·.2)).getD (.str "")
      let expiresInDays : Int := effectiveExpiresDays body
      if expiresInDays < MIN_EXPIRY_DAYS ∨ expiresInDays > MAX_EXPIRY_DAYS then
        .badExpiry "expires_in_days must be between 1 and 365"
      else
        let activeKeys := existing.filter (fun k => k.status = "active")
        if activeKeys.length ≥ MAX_KEYS_PER_USER then
          .conflict "Maximum of 10 active API keys per user"
        else
          let keyHash := env.sha256Hex rawKey
          let expiresAt := now + expiresInDays * 86400
          .created
            { key_hash := keyHash
              keyPfx := strTake rawKey 10
              user_sub := userSub
              user_email := userEmail
              description := description
              status := "active"
              created_at := now
              expires_at := some expiresAt
              revoked_at := none
              last_used_at := none
              ttl := expiresAt + 30 * 86400 }
            rawKey

/-- Outcome of `revoke_api_key` (the response); the handler also
returns the updated store and cache. -/
inductive RevokeResult where
  | unauthorized
  | missingPfx
  | notFound
  | alreadyRevoked
  | revoked (keyHash : String)
deriving Repr, DecidableEq

/-- `revoke_api_key`. `keyPfx` is the `{key_prefix}` path match. The
store-failure 500 branches are not modelled. -/
def revoke_api_key (identity : Option String) (keyPfx : String)
    (store : KeyStore) (cache : KeyCache) (now : Int) :
    RevokeResult × KeyStore × KeyCache :=
  match identity with
  | none => (.unauthorized, store, cache)
  | some userSub =>
      if keyPfx = "" then (.missingPfx, store, cache)
      else
        let items := _list_user_keys store userSub
        match items.find? (fun it => it.keyPfx = keyPfx) with
        | none => (.notFound, store, cache)
        | some target =>
            if target.status = "revoked" then (.alreadyRevoked, store, cache)
            else
              (.revoked target.key_hash,
                _revoke_api_key store target.key_hash userSub now,
                cachePop cache target.key_hash)

/-- A concrete instantiation of the external primitives, used to
evaluate the embedding on closed inputs. -/
def trivEnv : PyEnv where
  jloads := fun _ => none
  jdumps := fun _ => "\x7b\x7d"
  dumpContent := fun _ => "[]"
  dumpOther := fun s => s
  b64decode := fun s => s
  sha256Hex := fun s => "sha-" ++ s
  decodeJwt := fun _ => none

/-- Ten distinct active keys owned by user `"u"`, used to exercise the
per-user quota. -/
def tenActiveKeys : List ApiKeyItem :=
  (List.range 10).map fun i =>
    { key_hash := "h" ++ toString i
      keyPfx := "oc_p" ++ toString i
      user_sub := "u"
      user_email := "e"
      status := "active"
      created_at := 0
      expires_at := some 1000
      ttl := 0 }

/-! ## Claim C6: the version gate -/

/-- C6: the version gate rejects with the 426 `version_error` /
`client_outdated` body exactly when the path is not a bypass path, the
`X-Client-Version` header is present, not `"dev"`, the cached minimum is
known and nonempty, both versions parse as semver, and the client tuple
is lexicographically below the minimum; the rejection body carries
`minimum_version`, `your_version` and the `update_command` string, and
under the middleware a pass decision hands the unchanged request to the
inner handler while a reject decision short-circuits with status 426. -/
theorem versionGate_c6 (path clientVersion : String) (minimum : Option String)
    (domain : String) :
    ((∃ b, versionGate path clientVersion minimum domain = .reject b) ↔
      (versionGateBypass path = false ∧ clientVersion ≠ "" ∧ clientVersion ≠ "dev" ∧
        ∃ m, minimum = some m ∧ m ≠ "" ∧
          ∃ cp mp, _parse_semver clientVersion = some cp ∧ _parse_semver m = some mp ∧
            semverLt cp mp = true))
    ∧ (∀ b, versionGate path clientVersion minimum domain = .reject b →
        b.type = "version_error" ∧ b.code = "client_outdated" ∧
        b.minimum_version = minimum.getD "" ∧ b.your_version = clientVersion ∧
        b.update_command = "opencode-auth update && oc")
    ∧ (∀ (next : Handler) (req : HttpRequest),
        req.path = path → (headerGet req "X-Client-Version").getD "" = clientVersion →
        (versionGate path clientVersion minimum domain = .pass →
          version_gate_middleware minimum domain next req = next req) ∧
        (∀ b, versionGate path clientVersion minimum domain = .reject b →
          version_gate_middleware minimum domain next req = { status := 426, headers := [] })) := by
  refine ⟨⟨fun h => ?_, fun h => ?_⟩, fun b hb => ?_, fun next req hp hv => ?_⟩
  · obtain ⟨b, hb⟩ := h
    by_cases hby : versionGateBypass path
    · simp [versionGate, hby] at hb
    · by_cases hne : clientVersion = ""
      · simp [versionGate, hby, hne] at hb
      · by_cases hnd : clientVersion = "dev"
        · simp [versionGate, hby, hne, hnd] at hb
        · match hmin : minimum, hb with
          | none, hb => simp [versionGate, hby, hne, hnd] at hb
          | some m, hb =>
            by_cases hm0 : m = ""
            · simp [versionGate, hby, hne, hnd, hm0] at hb
            · match hcp : _parse_semver clientVersion, hmp : _parse_semver m with
              | none, _ => simp [versionGate, hby, hne, hnd, hm0, hcp] at hb
              | some cp, none => simp [versionGate, hby, hne, hnd, hm0, hcp, hmp] at hb
              | some cp, some mp =>
                by_cases hlt : semverLt cp mp
                · exact ⟨by simpa using hby, hne, hnd, m, rfl, hm0, cp, mp, rfl, hmp, hlt⟩
                · simp [versionGate, hby, hne, hnd, hm0, hcp, hmp, hlt] at hb
  · obtain ⟨hby, hne, hnd, m, hm, hm0, cp, mp, hcp, hmp, hlt⟩ := h
    subst hm
    exact ⟨mkVersionErrorBody clientVersion m domain,
      by simp [versionGate, hby, hne, hnd, hm0, hcp, hmp, hlt]⟩
  · by_cases hby : versionGateBypass path
    · simp [versionGate, hby] at hb
    · by_cases hne : clientVersion = ""
      · simp [versionGate, hby, hne] at hb
      · by_cases hnd : clientVersion = "dev"
        · simp [versionGate, hby, hne, hnd] at hb
        · match hmin : minimum, hb with
          | none, hb => simp [versionGate, hby, hne, hnd] at hb
          | some m, hb =>
            by_cases hm0 : m = ""
            · simp [versionGate, hby, hne, hnd, hm0] at hb
            · match hcp : _parse_semver clientVersion, hmp : _parse_semver m with
              | none, _ => simp [versionGate, hby, hne, hnd, hm0, hcp] at hb
              | some cp, none => simp [versionGate, hby, hne, hnd, hm0, hcp, hmp] at hb
              | some cp, some mp =>
                by_cases hlt : semverLt cp mp
                · have hb' : mkVersionErrorBody clientVersion m domain = b := by
                    simpa [versionGate, hby, hne, hnd, hm0, hcp, hmp, hlt] using hb
                  subst hb'
                  exact ⟨rfl, rfl, rfl, rfl, rfl⟩
                · simp [versionGate, hby, hne, hnd, hm0, hcp, hmp, hlt] at hb
  · constructor
    · intro hpass
      unfold version_gate_middleware
      rw [hp, hv, hpass]
    · intro b hb
      unfold version_gate_middleware
      rw [hp, hv, hb]

/-- C6 witness: a client at 0.1.0 against minimum 1.0.0 on the chat
endpoint is rejected with the `client_outdated` body. -/
theorem versionGate_c6_witness :
    ∃ b, versionGate "/v1/chat/completions" "0.1.0" (some "1.0.0") "" =
        GateDecision.reject b ∧
      b.code = "client_outdated" ∧ b.minimum_version = "1.0.0" ∧
      b.your_version = "0.1.0" := by
  obtain ⟨hiff, hfields, _⟩ :=
    versionGate_c6 "/v1/chat/completions" "0.1.0" (some "1.0.0") ""
  obtain ⟨b, hb⟩ := hiff.mpr
    ⟨by decide, by decide, by decide, "1.0.0", rfl, by decide,
      (0, 1, 0), (1, 0, 0), by decide, by decide, by decide⟩
  obtain ⟨_, hcode, hmin, hyour, _⟩ := hfields b hb
  exact ⟨b, hb, hcode, hmin, hyour⟩

/-! ## Claim C10: null content when no text blocks -/

/-- In the collected `(text_parts, reasoning_parts, tool_calls)` of the
response translator, `text_parts` is empty iff no `text` block occurs. -/
theorem collectRespBlocks_text_nil (env : PyEnv) (idx : Nat) (bs : List RBlock) :
    (collectRespBlocks env idx bs).1 = [] ↔ ∀ s, RBlock.text s ∉ bs := by
  induction bs generalizing idx with
  | nil => simp [collectRespBlocks]
  | cons b rest ih =>
      cases b with
      | text s =>
          simp only [collectRespBlocks]
          constructor
          · intro h; cases h
          · intro h; exact absurd (List.mem_cons_self _ _) (h s)
      | reasoningText s =>
          simp only [collectRespBlocks]
          rw [ih idx]
          constructor
          · intro h t ht
            rcases List.mem_cons.mp ht with h' | h'
            · cases h'
            · exact h t h'
          · intro h t ht
            exact h t (List.mem_cons_of_mem _ ht)
      | reasoningOther =>
          simp only [collectRespBlocks]
          rw [ih idx]
          constructor
          · intro h t ht
            rcases List.mem_cons.mp ht with h' | h'
            · cases h'
            · exact h t h'
          · intro h t ht
            exact h t (List.mem_cons_of_mem _ ht)
      | toolUse id? name? input? =>
          simp only [collectRespBlocks]
          rw [ih (idx + 1)]
          constructor
          · intro h t ht
            rcases List.mem_cons.mp ht with h' | h'
            · cases h'
            · exact h t h'
          · intro h t ht
            exact h t (List.mem_cons_of_mem _ ht)
      | other =>
          simp only [collectRespBlocks]
          rw [ih idx]
          constructor
          · intro h t ht
            rcases List.mem_cons.mp ht with h' | h'
            · cases h'
            · exact h t h'
          · intro h t ht
            exact h t (List.mem_cons_of_mem _ ht)

/-- C10: the unary translator emits `choices[0].message.content` as a
string exactly when the Converse response contains at least one `text`
block; with no text blocks (pure tool-use or pure reasoning responses)
the content is `None`, not the empty string. -/
theorem content_null_iff_no_text_c10 (env : PyEnv) (response : ConverseResponse)
    (model requestId : String) :
    ((translate_converse_to_openai env response model requestId).message.content = none
      ↔ ∀ s, RBlock.text s ∉ response.content)
    ∧ (∀ s, RBlock.text s ∈ response.content →
        (translate_converse_to_openai env response model requestId).message.content =
          some (String.intercalate "\n" (collectRespBlocks env 0 response.content).1)) := by
  unfold translate_converse_to_openai
  constructor
  · by_cases h : (collectRespBlocks env 0 response.content).1 = []
    · simpa [h] using (collectRespBlocks_text_nil env 0 response.content).mp h
    · have hne := h
      rw [collectRespBlocks_text_nil env 0 response.content] at hne
      push_neg at hne
      obtain ⟨s, hs⟩ := hne
      simp only [List.isEmpty_iff, h]
      constructor
      · intro hcontra
        exact absurd hcontra (by simp [h])
      · intro hnone
        exact absurd hs (hnone s)
  · intro s hs
    have h : (collectRespBlocks env 0 response.content).1 ≠ [] := by
      intro hnil
      exact absurd hs ((collectRespBlocks_text_nil env 0 response.content).mp hnil s)
    simp [List.isEmpty_iff, h]

/-- C10 witness: a pure tool-use response yields `content = none`; a
single text block yields that string. -/
theorem content_null_iff_no_text_c10_witness :
    (translate_converse_to_openai trivEnv
        { content := [.toolUse none none none] } "m" "r").message.content = none
    ∧ (translate_converse_to_openai trivEnv
        { content := [.text "hello"] } "m" "r").message.content = some "hello" := by
  have h1 := (content_null_iff_no_text_c10 trivEnv
    { content := [.toolUse none none none] } "m" "r").1.mpr (by intro s hs; simp at hs)
  have h2 := (content_null_iff_no_text_c10 trivEnv
    { content := [.text "hello"] } "m" "r").2 "hello" (by simp)
  exact ⟨h1, h2.trans rfl⟩

/-! ## Claim C3: finish_reason for tool-use responses -/

/-- In the collected translator output, `tool_calls` is empty iff no
`toolUse` block occurs in the response content. -/
theorem collectRespBlocks_tools_nil (env : PyEnv) (idx : Nat) (bs : List RBlock) :
    (collectRespBlocks env idx bs).2.2 = [] ↔
      ∀ a b c, RBlock.toolUse a b c ∉ bs := by
  induction bs generalizing idx with
  | nil => simp [collectRespBlocks]
  | cons b rest ih =>
      cases b with
      | text s =>
          simp only [collectRespBlocks]
          rw [ih idx]
          constructor
          · intro h a b c hm
            rcases List.mem_cons.mp hm with h' | h'
            · cases h'
            · exact h a b c h'
          · intro h a b c hm
            exact h a b c (List.mem_cons_of_mem _ hm)
      | reasoningText s =>
          simp only [collectRespBlocks]
          rw [ih idx]
          constructor
          · intro h a b c hm
            rcases List.mem_cons.mp hm with h' | h'
            · cases h'
            · exact h a b c h'
          · intro h a b c hm
            exact h a b c (List.mem_cons_of_mem _ hm)
      | reasoningOther =>
          simp only [collectRespBlocks]
          rw [ih idx]
          constructor
          · intro h a b c hm
            rcases List.mem_cons.mp hm with h' | h'
            · cases h'
            · exact h a b c h'
          · intro h a b c hm
            exact h a b c (List.mem_cons_of_mem _ hm)
      | other =>
          simp only [collectRespBlocks]
          rw [ih idx]
          constructor
          · intro h a b c hm
            rcases List.mem_cons.mp hm with h' | h'
            · cases h'
            · exact h a b c h'
          · intro h a b c hm
            exact h a b c (List.mem_cons_of_mem _ hm)
      | toolUse a b c =>
          simp only [collectRespBlocks]
          constructor
          · intro h
            exact absurd h (List.cons_ne_nil _ _)
          · intro h
            exact absurd (List.mem_cons_self _ _) (h a b c)

/-- C3 counterexample: a Converse response whose content contains a
`toolUse` block but whose `stopReason` is `max_tokens` is translated
with `finish_reason = "length"`, not `"tool_calls"`. -/
theorem finish_reason_c3_counterexample :
    (translate_converse_to_openai trivEnv
        { content := [.toolUse (some "t1") (some "f") none]
          stopReason := some "max_tokens" } "m" "r").finish_reason = "length"
    ∧ ("length" : String) ≠ "tool_calls" :=
  ⟨rfl, by decide⟩

/-- C3 amended: `finish_reason = "tool_calls"` exactly when the mapped
stop reason is `"stop"` and a `toolUse` block is present (the upgrade
rule), or the incoming `stopReason` itself maps to `"tool_calls"`
(i.e. is `tool_use`); for `max_tokens` / `content_filtered` the mapped
reason is kept even when tool calls are present. -/
theorem finish_reason_tool_calls_c3 (env : PyEnv) (response : ConverseResponse)
    (model requestId : String) :
    (translate_converse_to_openai env response model requestId).finish_reason =
        "tool_calls" ↔
      ((_map_stop_reason (response.stopReason.getD "end_turn") = "stop" ∧
          ∃ a b c, RBlock.toolUse a b c ∈ response.content) ∨
        _map_stop_reason (response.stopReason.getD "end_turn") = "tool_calls") := by
  have hnil := collectRespBlocks_tools_nil env 0 response.content
  rcases hc : collectRespBlocks env 0 response.content with ⟨ts, rs, tcs⟩
  rw [hc] at hnil
  unfold translate_converse_to_openai
  rw [hc]
  dsimp only
  by_cases htc : tcs = []
  · subst htc
    rw [if_neg (by simp)]
    constructor
    · exact Or.inr
    · rintro (⟨_, a, b, c, hm⟩ | h)
      · exact absurd hm (hnil.mp rfl a b c)
      · exact h
  · have hex : ∃ a b c, RBlock.toolUse a b c ∈ response.content := by
      by_contra hno
      push_neg at hno
      exact htc (hnil.mpr fun a b c => hno a b c)
    by_cases hstop : _map_stop_reason (response.stopReason.getD "end_turn") = "stop"
    · rw [if_pos ⟨by simp [htc], hstop⟩]
      constructor
      · intro _; exact Or.inl ⟨hstop, hex⟩
      · intro _; rfl
    · rw [if_neg (fun h => hstop h.2)]
      constructor
      · exact Or.inr
      · rintro (⟨h, _⟩ | h)
        · exact absurd h hstop
        · exact h

/-! ## Claim C7: expires_in_days validation -/

/-- C7 counterexample: a supplied `expires_in_days` that fails integer
coercion (`"abc"`) is not rejected with 400; the handler silently falls
back to the default 90 days and creates the key. -/
theorem expires_validation_c7_counterexample :
    pyIntCoerce (JVal.str "abc") = none ∧
    create_api_key trivEnv (some ("u", "e")) [("expires_in_days", JVal.str "abc")]
        [] "oc_rawkey12" 0 =
      .created
        { key_hash := "sha-oc_rawkey12"
          keyPfx := "oc_rawkey1"
          user_sub := "u"
          user_email := "e"
          description := .str ""
          status := "active"
          created_at := 0
          expires_at := some 7776000
          revoked_at := none
          last_used_at := none
          ttl := 10368000 } "oc_rawkey12" :=
  ⟨rfl, rfl⟩

/-- C7 amended: `expires_in_days` is coerced to an integer with default
90; a value that fails coercion is replaced by the default (and the
request proceeds); the 400 validation rejection happens exactly when
the coerced value lies outside [1, 365]. -/
theorem expires_validation_c7 (env : PyEnv) (identity : Option (String × String))
    (body : List (String × JVal)) (existing : List ApiKeyItem)
    (rawKey : String) (now : Int) (sub email : String) :
    identity = some (sub, email) →
    ((∃ msg, create_api_key env identity body existing rawKey now = .badExpiry msg) ↔
        (effectiveExpiresDays body < MIN_EXPIRY_DAYS ∨
          effectiveExpiresDays body > MAX_EXPIRY_DAYS))
    ∧ (∀ msg, create_api_key env identity body existing rawKey now = .badExpiry msg →
        msg = "expires_in_days must be between 1 and 365")
    ∧ (∀ v, (body.find? (fun kv => kv.1 = "expires_in_days")).map (·.2) = some v →
        pyIntCoerce v = none → effectiveExpiresDays body = 90)
    ∧ (body.find? (fun kv => kv.1 = "expires_in_days") = none →
        effectiveExpiresDays body = 90) := by
  intro hid
  subst hid
  refine ⟨?_, ?_, ?_, ?_⟩
  · by_cases hdays : effectiveExpiresDays body < MIN_EXPIRY_DAYS ∨
        effectiveExpiresDays body > MAX_EXPIRY_DAYS
    · simp only [create_api_key, if_pos hdays]
      exact ⟨fun _ => hdays, fun _ => ⟨_, rfl⟩⟩
    · simp only [create_api_key, if_neg hdays]
      constructor
      · rintro ⟨msg, hmsg⟩
        by_cases hq : (existing.filter (fun k => k.status = "active")).length ≥
            MAX_KEYS_PER_USER
        · rw [if_pos hq] at hmsg; cases hmsg
        · rw [if_neg hq] at hmsg; cases hmsg
      · intro h; exact absurd h hdays
  · intro msg hmsg
    by_cases hdays : effectiveExpiresDays body < MIN_EXPIRY_DAYS ∨
        effectiveExpiresDays body > MAX_EXPIRY_DAYS
    · simp only [create_api_key, if_pos hdays] at hmsg
      exact ((CreateResult.badExpiry.injEq _ _).mp hmsg).symm
    · simp only [create_api_key, if_neg hdays] at hmsg
      by_cases hq : (existing.filter (fun k => k.status = "active")).length ≥
          MAX_KEYS_PER_USER
      · rw [if_pos hq] at hmsg; cases hmsg
      · rw [if_neg hq] at hmsg; cases hmsg
  · intro v hv hcoerce
    unfold effectiveExpiresDays
    rw [hv]
    dsimp only
    rw [hcoerce]
    rfl
  · intro hv
    unfold effectiveExpiresDays
    rw [hv]
    rfl

/-- C7 witness: an out-of-range value (400) is rejected; `"abc"`
falls back to the default 90. -/
theorem expires_validation_c7_witness :
    (∃ msg, create_api_key trivEnv (some ("u", "e"))
        [("expires_in_days", JVal.num 400)] [] "oc_r" 0 = .badExpiry msg)
    ∧ effectiveExpiresDays [("expires_in_days", JVal.str "abc")] = 90 := by
  have h1 := expires_validation_c7 trivEnv (some ("u", "e"))
    [("expires_in_days", JVal.num 400)] [] "oc_r" 0 "u" "e" rfl
  have h2 := expires_validation_c7 trivEnv (some ("u", "e"))
    [("expires_in_days", JVal.str "abc")] [] "oc_r" 0 "u" "e" rfl
  exact ⟨h1.1.mpr (by decide), h2.2.2.1 (JVal.str "abc") rfl rfl⟩

/-! ## Claim C8: the ten-active-keys quota -/

/-- C8 counterexample: a request by a user who already has ten active
keys is not always answered with 409 — an out-of-range
`expires_in_days` triggers the 400 validation rejection first. -/
theorem quota_c8_counterexample :
    (tenActiveKeys.filter (fun k => k.status = "active")).length = 10 ∧
    create_api_key trivEnv (some ("u", "e")) [("expires_in_days", JVal.num 400)]
        tenActiveKeys "oc_raw" 0 =
      .badExpiry "expires_in_days must be between 1 and 365" :=
  ⟨rfl, rfl⟩

/-- C8 amended: for a bearer-authenticated create request whose
`expires_in_days` validates (the 400 check precedes the quota check),
a caller with ten or more active keys gets 409 with the message
"Maximum of 10 active API keys per user" (which mentions
"10 active API keys"), and no store put happens (no `created` outcome). -/
theorem quota_conflict_c8 (env : PyEnv) (identity : Option (String × String))
    (body : List (String × JVal)) (existing : List ApiKeyItem)
    (rawKey : String) (now : Int) (sub email : String) :
    identity = some (sub, email) →
    ¬(effectiveExpiresDays body < MIN_EXPIRY_DAYS ∨
        effectiveExpiresDays body > MAX_EXPIRY_DAYS) →
    MAX_KEYS_PER_USER ≤ (existing.filter (fun k => k.status = "active")).length →
    create_api_key env identity body existing rawKey now =
        .conflict "Maximum of 10 active API keys per user"
    ∧ (∀ item raw, create_api_key env identity body existing rawKey now ≠ .created item raw)
    ∧ strContainsSub "Maximum of 10 active API keys per user" "10 active API keys" = true := by
  intro hid hdays hquota
  subst hid
  have hmain : create_api_key env (some (sub, email)) body existing rawKey now =
      .conflict "Maximum of 10 active API keys per user" := by
    simp only [create_api_key, if_neg hdays]
    rw [if_pos hquota]
  refine ⟨hmain, ?_, by decide⟩
  intro item raw h
  rw [hmain] at h
  cases h

/-- C8 witness: with an empty body and ten active keys, the result is
the 409 conflict. -/
theorem quota_conflict_c8_witness :
    create_api_key trivEnv (some ("u", "e")) [] tenActiveKeys "oc_raw" 0 =
      .conflict "Maximum of 10 active API keys per user" :=
  (quota_conflict_c8 trivEnv (some ("u", "e")) [] tenActiveKeys "oc_raw" 0 "u" "e"
    rfl (by decide) (by decide)).1

/-! ## Claim C5: SSE framing -/

/-- Every frame emitted for one stream event is a chat chunk (never the
error payload and never `[DONE]`). -/
theorem eventFrames_only_chunks (idx : Int) (e : CEvent) :
    ∀ f ∈ (eventFrames idx e).2, ∃ c, f = .chunk c := by
  intro f hf
  cases e with
  | messageStart => simp [eventFrames] at hf; exact ⟨_, hf⟩
  | contentBlockStart t? =>
      cases t? with
      | none => simp [eventFrames] at hf
      | some p => simp [eventFrames] at hf; exact ⟨_, hf⟩
  | contentBlockDelta d =>
      cases d with
      | text s => simp [eventFrames] at hf; exact ⟨_, hf⟩
      | reasoning s =>
          by_cases hs : s = ""
          · simp [eventFrames, hs] at hf
          · simp [eventFrames, hs] at hf; exact ⟨_, hf⟩
      | toolUse inp =>
          by_cases hs : inp = ""
          · simp [eventFrames, hs] at hf
          · simp [eventFrames, hs] at hf; exact ⟨_, hf⟩
      | otherDelta => simp [eventFrames] at hf
  | contentBlockStop => simp [eventFrames] at hf
  | messageStop sr => simp [eventFrames] at hf; exact ⟨_, hf⟩
  | metadata u? =>
      cases u? with
      | none => simp [eventFrames] at hf
      | some u => simp [eventFrames] at hf; exact ⟨_, hf⟩
  | otherEvent => simp [eventFrames] at hf

/-- The event loop never writes `[DONE]` or the error payload itself. -/
theorem streamBody_only_chunks (events : List CEvent) :
    ∀ idx, ∀ f ∈ streamBody idx events, ∃ c, f = .chunk c := by
  induction events with
  | nil => intro idx f hf; simp [streamBody] at hf
  | cons e rest ih =>
      intro idx f hf
      rcases hp : eventFrames idx e with ⟨idx', fs⟩
      simp only [streamBody, hp] at hf
      rcases List.mem_append.mp hf with h | h
      · exact eventFrames_only_chunks idx e f (by rw [hp]; exact h)
      · exact ih idx' f h

theorem done_not_mem_streamBody (events : List CEvent) (idx : Int) :
    SSEFrame.done ∉ streamBody idx events := by
  intro h
  obtain ⟨c, hc⟩ := streamBody_only_chunks events idx _ h
  cases hc

theorem errorChunk_not_mem_streamBody (events : List CEvent) (idx : Int) :
    SSEFrame.errorChunk ∉ streamBody idx events := by
  intro h
  obtain ⟨c, hc⟩ := streamBody_only_chunks events idx _ h
  cases hc

/-- C5 counterexample: the empty event stream emits only `data: [DONE]`;
the frame sequence does not begin with a `messageStart`-derived chunk. -/
theorem sse_framing_c5_counterexample :
    handle_anthropic_streaming (some []) = [.done] ∧
    (handle_anthropic_streaming (some [])).head? ≠
      some (.chunk ⟨.roleContent, none, none⟩) :=
  ⟨rfl, by decide⟩

/-- C5 amended: every completed stream ends with exactly one
`data: [DONE]` frame; when the first event is `messageStart` the
sequence begins with the role/empty-content chunk (the empty stream
emits only `[DONE]`); a mid-stream failure with a writable response
emits the frames so far, then exactly one error chunk, then exactly one
`[DONE]`. -/
theorem sse_framing_c5 :
    (∀ events, (handle_anthropic_streaming (some events)).getLast? = some .done ∧
        (handle_anthropic_streaming (some events)).count .done = 1) ∧
    (∀ rest, (handle_anthropic_streaming (some (CEvent.messageStart :: rest))).head? =
        some (.chunk ⟨.roleContent, none, none⟩)) ∧
    (∀ events k,
        handle_anthropic_streaming_failed events k true =
          streamBody (-1) (events.take k) ++ [.errorChunk, .done] ∧
        (handle_anthropic_streaming_failed events k true).getLast? = some .done ∧
        (handle_anthropic_streaming_failed events k true).count .done = 1 ∧
        (handle_anthropic_streaming_failed events k true).count .errorChunk = 1) ∧
    handle_anthropic_streaming none = [.done] := by
  refine ⟨fun events => ⟨?_, ?_⟩, fun rest => ?_, fun events k => ⟨rfl, ?_, ?_, ?_⟩, rfl⟩
  · simp [handle_anthropic_streaming, List.getLast?_concat]
  · simp only [handle_anthropic_streaming, List.count_append]
    rw [List.count_eq_zero.mpr (done_not_mem_streamBody events (-1))]
    rfl
  · simp [handle_anthropic_streaming, streamBody, eventFrames]
  · show (streamBody (-1) (events.take k) ++
        [SSEFrame.errorChunk, SSEFrame.done]).getLast? = some SSEFrame.done
    rw [show ([SSEFrame.errorChunk, SSEFrame.done] : List SSEFrame) =
      [SSEFrame.errorChunk] ++ [SSEFrame.done] from rfl]
    rw [← List.append_assoc, List.getLast?_concat]
  · show (streamBody (-1) (events.take k) ++
        [SSEFrame.errorChunk, SSEFrame.done]).count SSEFrame.done = 1
    rw [List.count_append,
      List.count_eq_zero.mpr (done_not_mem_streamBody (events.take k) (-1))]
    rfl
  · show (streamBody (-1) (events.take k) ++
        [SSEFrame.errorChunk, SSEFrame.done]).count SSEFrame.errorChunk = 1
    rw [List.count_append,
      List.count_eq_zero.mpr (errorChunk_not_mem_streamBody (events.take k) (-1))]
    rfl

/-! ## Claim C2: role alternation -/

/-- The message loop distributes over list append. -/
theorem foldMsgs_append (env : PyEnv) (st : List CBlock × List CMsg)
    (l1 l2 : List OAMsg) :
    foldMsgs env st (l1 ++ l2) =
      (foldMsgs env st l1).bind (fun st' => foldMsgs env st' l2) := by
  induction l1 generalizing st with
  | nil => simp [foldMsgs]
  | cons m ms ih =>
      show (stepMsg env st m).bind (fun st1 => foldMsgs env st1 (ms ++ l2)) =
        ((stepMsg env st m).bind fun st1 => foldMsgs env st1 ms).bind
          (fun st' => foldMsgs env st' l2)
      cases stepMsg env st m with
      | none => rfl
      | some st1 => simpa using ih st1

/-- Processing a `role="tool"` message always succeeds, leaves the
system blocks alone, and leaves the canonical list ending in a
`user` message. -/
theorem stepMsg_tool_ends_user (env : PyEnv) (st : List CBlock × List CMsg)
    (msg : OAMsg) (h : msg.role = "tool") :
    ∃ pre last, stepMsg env st msg = some (st.1, pre ++ [last]) ∧
      last.role = "user" := by
  obtain ⟨sys, cms⟩ := st
  match hl : cms.getLast? with
  | none =>
      refine ⟨cms, ⟨"user", [toolResultBlockOf env msg]⟩, ?_, rfl⟩
      simp [stepMsg, h, hl]
  | some last' =>
      by_cases hu : last'.role = "user"
      · refine ⟨cms.dropLast,
          { last' with content := last'.content ++ [toolResultBlockOf env msg] }, ?_, hu⟩
        simp [stepMsg, h, hl, hu]
      · refine ⟨cms, ⟨"user", [toolResultBlockOf env msg]⟩, ?_, rfl⟩
        simp [stepMsg, h, hl, hu]

/-- Processing a `role="tool"` message when the canonical list already
ends in a `user` message appends the `toolResult` block to that
message instead of emitting a new one. -/
theorem stepMsg_tool_on_user (env : PyEnv) (st : List CBlock × List CMsg)
    (msg : OAMsg) (last : CMsg) (h : msg.role = "tool")
    (hl : st.2.getLast? = some last) (hu : last.role = "user") :
    stepMsg env st msg = some (st.1, st.2.dropLast ++
      [{ last with content := last.content ++ [toolResultBlockOf env msg] }]) := by
  obtain ⟨sys, cms⟩ := st
  simp only at hl
  simp [stepMsg, h, hl, hu]

/-- C2 counterexample: two adjacent `user` messages are not merged; the
translated canonical roles are `["user", "user"]`, which do not
strictly alternate. -/
theorem alternation_c2_counterexample :
    (translate_openai_to_converse trivEnv
        { model := "m"
          messages := [{ role := "user", content := .ofStr "a" },
                       { role := "user", content := .ofStr "b" }] }).map
      (fun p => p.messages.map CMsg.role) = some ["user", "user"] ∧
    ¬ List.Chain' (fun a b => a ≠ b) ["user", "user"] :=
  ⟨rfl, fun h => (List.chain'_cons.mp h).1 rfl⟩

/-- C2 amended: only tool-result messages are merged: a second
consecutive `role="tool"` message appends its `toolResult` block to the
trailing `user` canonical message, adding no new message and changing
no roles; other consecutive same-role inputs (user/user,
assistant/assistant) are emitted unmerged, so roles need not strictly
alternate. -/
theorem tool_merge_c2 (env : PyEnv) (ms : List OAMsg) (t1 t2 : OAMsg)
    (st0 st1 : List CBlock × List CMsg)
    (h1 : t1.role = "tool") (h2 : t2.role = "tool")
    (hfold : foldMsgs env st0 (ms ++ [t1]) = some st1) :
    ∃ pre last, st1.2 = pre ++ [last] ∧ last.role = "user" ∧
      foldMsgs env st0 (ms ++ [t1, t2]) =
        some (st1.1, pre ++
          [{ last with content := last.content ++ [toolResultBlockOf env t2] }]) ∧
      (pre ++
        [{ last with content := last.content ++ [toolResultBlockOf env t2] }]).map
          CMsg.role = st1.2.map CMsg.role := by
  have hbind := hfold
  rw [foldMsgs_append env st0 ms [t1]] at hbind
  obtain ⟨mid, hmid, hstep⟩ := Option.bind_eq_some.mp hbind
  have hunfold : foldMsgs env mid [t1] =
      (stepMsg env mid t1).bind (fun s => foldMsgs env s []) := rfl
  have hstep1 : stepMsg env mid t1 = some st1 := by
    cases hs : stepMsg env mid t1 with
    | none => rw [hunfold, hs] at hstep; cases hstep
    | some s1 => rw [hunfold, hs] at hstep; simpa [foldMsgs] using hstep
  obtain ⟨pre, last, hform, hrole⟩ := stepMsg_tool_ends_user env mid t1 h1
  have hst1 : st1 = (mid.1, pre ++ [last]) := by
    rw [hform] at hstep1
    exact (Option.some.inj hstep1).symm
  have hst2 : st1.2 = pre ++ [last] := by rw [hst1]
  have hlast : st1.2.getLast? = some last := by rw [hst2, List.getLast?_concat]
  have hdrop : st1.2.dropLast = pre := by rw [hst2, List.dropLast_concat]
  refine ⟨pre, last, hst2, hrole, ?_, ?_⟩
  · have hsplit : ms ++ [t1, t2] = (ms ++ [t1]) ++ [t2] := by simp
    rw [hsplit, foldMsgs_append env st0 (ms ++ [t1]) [t2], hfold]
    have hstep2 := stepMsg_tool_on_user env st1 t2 last h2 hlast hrole
    show foldMsgs env st1 [t2] = _
    rw [show foldMsgs env st1 [t2] =
      (stepMsg env st1 t2).bind (fun s => foldMsgs env s []) from rfl, hstep2]
    simp [foldMsgs, hdrop]
  · rw [hst2]
    simp [hrole]

/-- C2 witness: two consecutive tool messages translate into a single
`user` canonical message carrying both `toolResult` blocks. -/
theorem tool_merge_c2_witness :
    ∃ pre last,
      ((([], [(⟨"user", [CBlock.toolResult "c1" "r1"]⟩ : CMsg)]) :
        List CBlock × List CMsg)).2 = pre ++ [last] ∧
      last.role = "user" ∧
      foldMsgs trivEnv ([], [])
          ([] ++ [({ role := "tool", content := .ofStr "r1", tool_call_id := "c1" } : OAMsg),
                  { role := "tool", content := .ofStr "r2", tool_call_id := "c2" }]) =
        some (((([], [(⟨"user", [CBlock.toolResult "c1" "r1"]⟩ : CMsg)]) :
            List CBlock × List CMsg)).1,
          pre ++ [{ last with content := last.content ++
            [toolResultBlockOf trivEnv
              { role := "tool", content := .ofStr "r2", tool_call_id := "c2" }] }]) ∧
      (pre ++ [{ last with content := last.content ++
          [toolResultBlockOf trivEnv
            { role := "tool", content := .ofStr "r2", tool_call_id := "c2" }] }]).map
        CMsg.role =
        ((([], [(⟨"user", [CBlock.toolResult "c1" "r1"]⟩ : CMsg)]) :
          List CBlock × List CMsg)).2.map CMsg.role :=
  tool_merge_c2 trivEnv []
    { role := "tool", content := .ofStr "r1", tool_call_id := "c1" }
    { role := "tool", content := .ofStr "r2", tool_call_id := "c2" }
    ([], []) ([], [⟨"user", [CBlock.toolResult "c1" "r1"]⟩]) rfl rfl rfl

/-! ## Claim C9: revocation -/

/-- Popping a cache key makes its lookup miss. -/
theorem cacheGet_cachePop (c : KeyCache) (k : String) :
    cacheGet (cachePop c k) k = none := by
  induction c with
  | nil => rfl
  | cons kv rest ih =>
      by_cases hk : kv.1 = k
      · simp [cachePop, cacheGet, List.filter_cons, hk] at ih ⊢
      · simp [cachePop, cacheGet, List.filter_cons, List.find?_cons, hk] at ih ⊢

/-- After the conditional revoke, the primary-key lookup of the target
hash returns the revoked record (hashes are unique in the table). -/
theorem lookup_after_revoke (store : KeyStore) (target : ApiKeyItem)
    (sub : String) (now : Int)
    (hnd : (store.map ApiKeyItem.key_hash).Nodup)
    (hmem : target ∈ store) (hsub : target.user_sub = sub) :
    _lookup_api_key (_revoke_api_key store target.key_hash sub now) target.key_hash =
      some { target with status := "revoked", revoked_at := some now } := by
  induction store with
  | nil => cases hmem
  | cons a rest ih =>
      rw [List.map_cons, List.nodup_cons] at hnd
      obtain ⟨hna, hndr⟩ := hnd
      rcases List.mem_cons.mp hmem with rfl | hmem'
      · unfold _revoke_api_key _lookup_api_key
        rw [List.map_cons, if_pos ⟨rfl, hsub⟩]
        simp [List.find?_cons]
      · have hne : a.key_hash ≠ target.key_hash := by
          intro he
          exact hna (he ▸ List.mem_map_of_mem ApiKeyItem.key_hash hmem')
        have ihh := ih hndr hmem'
        unfold _revoke_api_key _lookup_api_key at ihh ⊢
        rw [List.map_cons, if_neg (fun h => hne h.1)]
        simpa [List.find?_cons, hne] using ihh

/-- C9: revoking by prefix — 404 when no key in the list of the
caller matches; 409 (and no state change) when the matched key is already
revoked; otherwise the record is conditionally set to
`status = "revoked"` with `revoked_at = now`, the in-process cache
entry for its hash is evicted, and a subsequent authentication with
the raw key in the same process is denied 401 `revoked_api_key`
instead of being served from the cache. -/
theorem revoke_api_key_c9 (env : PyEnv) (store : KeyStore) (cache : KeyCache)
    (now now2 : Int) (sub pfxArg : String) :
    (pfxArg ≠ "" →
      (∀ it ∈ _list_user_keys store sub, ¬it.keyPfx = pfxArg) →
      revoke_api_key (some sub) pfxArg store cache now = (.notFound, store, cache)) ∧
    (∀ target,
      (_list_user_keys store sub).find? (fun it => it.keyPfx = pfxArg) = some target →
      target.status = "revoked" →
      pfxArg ≠ "" →
      revoke_api_key (some sub) pfxArg store cache now =
        (.alreadyRevoked, store, cache)) ∧
    (∀ target,
      (_list_user_keys store sub).find? (fun it => it.keyPfx = pfxArg) = some target →
      ¬target.status = "revoked" →
      pfxArg ≠ "" →
      (store.map ApiKeyItem.key_hash).Nodup →
      ∃ store' cache',
        revoke_api_key (some sub) pfxArg store cache now =
          (.revoked target.key_hash, store', cache') ∧
        _lookup_api_key store' target.key_hash =
          some { target with status := "revoked", revoked_at := some now } ∧
        cacheGet cache' target.key_hash = none ∧
        (∀ rawKey, env.sha256Hex rawKey = target.key_hash →
          (validateApiKey env store' cache' now2 rawKey).1 =
            .deny 401 "revoked_api_key")) := by
  refine ⟨fun hpfx hnone => ?_, fun target hfind hrev hpfx => ?_,
    fun target hfind hrev hpfx hnd => ?_⟩
  · have hf : (_list_user_keys store sub).find? (fun it => it.keyPfx = pfxArg) = none :=
      List.find?_eq_none.mpr (by simpa using hnone)
    simp only [revoke_api_key, if_neg hpfx, hf]
  · simp only [revoke_api_key, if_neg hpfx, hfind, if_pos hrev]
  · have hmem' := List.mem_of_find?_eq_some hfind
    have hmem : target ∈ store := List.mem_of_mem_filter hmem'
    have hsub : target.user_sub = sub := by
      have := List.of_mem_filter hmem'
      simpa using this
    refine ⟨_revoke_api_key store target.key_hash sub now,
      cachePop cache target.key_hash, ?_, ?_, ?_, ?_⟩
    · simp only [revoke_api_key, if_neg hpfx, hfind, if_neg hrev]
    · exact lookup_after_revoke store target sub now hnd hmem hsub
    · exact cacheGet_cachePop cache target.key_hash
    · intro rawKey hsha
      unfold validateApiKey
      rw [hsha]
      simp only [cacheGet_cachePop]
      unfold validateViaStore
      simp only [lookup_after_revoke store target sub now hnd hmem hsub]
      rw [if_pos (by decide)]

/-- C9 witness: revoking an active key, then authenticating with the
raw key, is denied 401 `revoked_api_key`. -/
theorem revoke_api_key_c9_witness :
    ∃ store' cache',
      revoke_api_key (some "u") "oc_abc1234"
          [{ key_hash := "sha-oc_k", keyPfx := "oc_abc1234", user_sub := "u"
             user_email := "e", status := "active", created_at := 0
             expires_at := some 99, ttl := 0 }]
          [("sha-oc_k", ⟨"u", "e", 50⟩)] 0 =
        (.revoked "sha-oc_k", store', cache') ∧
      _lookup_api_key store' "sha-oc_k" =
        some { key_hash := "sha-oc_k", keyPfx := "oc_abc1234", user_sub := "u"
               user_email := "e", status := "revoked", created_at := 0
               expires_at := some 99, revoked_at := some 0, ttl := 0 } ∧
      cacheGet cache' "sha-oc_k" = none ∧
      (∀ rawKey, trivEnv.sha256Hex rawKey = "sha-oc_k" →
        (validateApiKey trivEnv store' cache' 10 rawKey).1 =
          .deny 401 "revoked_api_key") :=
  (revoke_api_key_c9 trivEnv
      [{ key_hash := "sha-oc_k", keyPfx := "oc_abc1234", user_sub := "u"
         user_email := "e", status := "active", created_at := 0
         expires_at := some 99, ttl := 0 }]
      [("sha-oc_k", ⟨"u", "e", 50⟩)] 0 10 "u" "oc_abc1234").2.2
    { key_hash := "sha-oc_k", keyPfx := "oc_abc1234", user_sub := "u"
      user_email := "e", status := "active", created_at := 0
      expires_at := some 99, ttl := 0 }
    rfl (by decide) (by decide) (by decide)

/-! ## Claim C4: toolConfig synthesis from history -/

theorem toolUseNames_mem (bs : List CBlock) (n : String) :
    n ∈ toolUseNames bs ↔ ∃ tid inp, CBlock.toolUse tid n inp ∈ bs := by
  unfold toolUseNames
  rw [List.mem_filterMap]
  constructor
  · rintro ⟨b, hb, hf⟩
    cases b with
    | toolUse tid m inp =>
        simp only [Option.some.injEq] at hf
        subst hf
        exact ⟨tid, inp, hb⟩
    | text s => simp at hf
    | image f by_ => simp at hf
    | toolResult tid c => simp at hf
    | cachePoint => simp at hf
  · rintro ⟨tid, inp, hb⟩
    exact ⟨_, hb, rfl⟩

/-- Membership after folding `seen_tool_names` over blocks: a nonempty
name survives the `discard("")` steps, and is present iff it was
already seen or some `toolUse` block carries it. -/
theorem seenFold_mem (n : String) (hn : n ≠ "") (bs : List CBlock) :
    ∀ seen, n ∈ List.foldl seenStep seen bs ↔ n ∈ seen ∨ n ∈ toolUseNames bs := by
  induction bs with
  | nil => intro seen; simp [toolUseNames]
  | cons b rest ih =>
      intro seen
      rw [List.foldl_cons, ih]
      cases b with
      | toolUse tid name inp =>
          have hnames : toolUseNames (CBlock.toolUse tid name inp :: rest) =
              name :: toolUseNames rest := rfl
          rw [hnames]
          by_cases hm : name ∈ seen
          · simp only [seenStep, if_pos hm, List.mem_cons]
            constructor
            · rintro (h | h)
              · exact Or.inl h
              · exact Or.inr (Or.inr h)
            · rintro (h | h | h)
              · exact Or.inl h
              · exact Or.inl (h ▸ hm)
              · exact Or.inr h
          · simp only [seenStep, if_neg hm, List.mem_append, List.mem_cons,
              List.mem_singleton]
            tauto
      | toolResult tid c =>
          have hnames : toolUseNames (CBlock.toolResult tid c :: rest) =
              toolUseNames rest := rfl
          rw [hnames]
          simp only [seenStep, List.mem_filter, ne_eq, decide_not]
          constructor
          · rintro (⟨h, _⟩ | h)
            · exact Or.inl h
            · exact Or.inr h
          · rintro (h | h)
            · exact Or.inl ⟨h, by simpa using hn⟩
            · exact Or.inr h
      | text s => exact Iff.rfl
      | image f by_ => exact Iff.rfl
      | cachePoint => exact Iff.rfl

/-- The `seen_tool_names` fold keeps the list duplicate-free. -/
theorem seenFold_nodup (bs : List CBlock) :
    ∀ seen : List String, seen.Nodup → (List.foldl seenStep seen bs).Nodup := by
  induction bs with
  | nil => intro seen h; exact h
  | cons b rest ih =>
      intro seen h
      rw [List.foldl_cons]
      apply ih
      cases b with
      | toolUse tid name inp =>
          by_cases hm : name ∈ seen
          · simpa [seenStep, hm] using h
          · simp only [seenStep, if_neg hm]
            rw [List.nodup_append]
            exact ⟨h, List.nodup_singleton name, by simpa using hm⟩
      | toolResult tid c => exact List.Nodup.filter _ h
      | text s => exact h
      | image f by_ => exact h
      | cachePoint => exact h

/-- With no `toolUse` block at all, the fold started from the empty set
stays empty (a `toolResult` only discards). -/
theorem seenFold_nil_of_no_toolUse (bs : List CBlock)
    (h : toolUseNames bs = []) : List.foldl seenStep [] bs = [] := by
  induction bs with
  | nil => rfl
  | cons b rest ih =>
      cases b with
      | toolUse tid name inp => cases h
      | toolResult tid c => exact ih h
      | text s => exact ih h
      | image f by_ => exact ih h
      | cachePoint => exact ih h

/-- The nested fold over messages equals the fold over the flattened
block list. -/
theorem collectToolNames_eq_flat (cms : List CMsg) :
    ∀ seen, List.foldl (fun s cm => cm.content.foldl seenStep s) seen cms =
      List.foldl seenStep seen (allBlocks cms) := by
  induction cms with
  | nil => intro seen; rfl
  | cons cm rest ih =>
      intro seen
      rw [List.foldl_cons]
      rw [ih]
      show _ = List.foldl seenStep seen ((cm.content :: rest.map CMsg.content).flatten)
      rw [List.flatten_cons, List.foldl_append]
      rfl

/-- C4 counterexample: a history containing only `toolResult` blocks
(and no `toolUse`) yields no `toolConfig`: `seen_tool_names` only ever
gains names from `toolUse` blocks (`discard("")` adds nothing), so the
synthesized config is skipped. -/
theorem toolConfig_c4_counterexample :
    (translate_openai_to_converse trivEnv
        { model := "m"
          messages := [{ role := "tool", content := .ofStr "res",
                         tool_call_id := "t1" }] }).map
      (fun p => (p.messages.map CMsg.content, p.toolConfig)) =
      some ([[CBlock.toolResult "t1" "res"]], none) :=
  rfl

/-- C4 amended: with no `tools` field, a `toolConfig` is synthesized
exactly from the `toolUse` blocks of the translated history: if the
history has no `toolUse` block at all (in particular a toolResult-only
history) no `toolConfig` is emitted; if some `toolUse` block carries a
nonempty name, the emitted `toolConfig` holds one `toolSpec` per
distinct nonempty `toolUse` name, with description "Tool from
conversation history" and `inputSchema {json: {type: "object"}}`, in
sorted name order (plus a trailing cache point when caching is on). -/
theorem toolConfig_synthesis_c4 (env : PyEnv) (body : OABody) (enableCache : Bool)
    (params : ConverseParams)
    (htools : body.tools = none)
    (htr : translate_openai_to_converse env body enableCache = some params) :
    ((∀ tid n inp, CBlock.toolUse tid n inp ∉ allBlocks params.messages) →
      params.toolConfig = none) ∧
    ((∃ tid n inp, n ≠ "" ∧ CBlock.toolUse tid n inp ∈ allBlocks params.messages) →
      ∃ specNames : List String,
        params.toolConfig = some
          ((specNames.map fun n =>
              ToolEntry.spec n "Tool from conversation history"
                (JVal.obj [("type", JVal.str "object")])) ++
            (if enableCache then [ToolEntry.cachePoint] else [])) ∧
        specNames.Nodup ∧
        List.Pairwise (· ≤ ·) specNames ∧
        (∀ n, n ∈ specNames ↔ n ≠ "" ∧
          ∃ tid inp, CBlock.toolUse tid n inp ∈ allBlocks params.messages)) := by
  cases hf : foldMsgs env ([], []) body.messages with
  | none =>
      unfold translate_openai_to_converse at htr
      rw [hf] at htr
      simp at htr
  | some st =>
      obtain ⟨sysBlocks, cms⟩ := st
      have hmsgs : params.messages = cms := by
        have heq := htr
        unfold translate_openai_to_converse at heq
        rw [hf] at heq
        simp only [Option.some_bind] at heq
        obtain rfl := Option.some.inj heq
        rfl
      have hcfg : params.toolConfig =
          (if (collectToolNames cms).isEmpty then none
           else some (synthToolEntries enableCache (collectToolNames cms))) := by
        have heq := htr
        unfold translate_openai_to_converse at heq
        rw [hf, htools] at heq
        simp only [Option.some_bind] at heq
        obtain rfl := Option.some.inj heq
        rfl
      have hflat : collectToolNames cms =
          List.foldl seenStep [] (allBlocks cms) := collectToolNames_eq_flat cms []
      rw [hmsgs]
      constructor
      · intro hno
        have hnames0 : toolUseNames (allBlocks cms) = [] := by
          rw [List.eq_nil_iff_forall_not_mem]
          intro n hmem
          obtain ⟨tid, inp, hblk⟩ := (toolUseNames_mem _ _).mp hmem
          exact hno tid n inp hblk
        have hcoll : collectToolNames cms = [] := by
          rw [hflat]
          exact seenFold_nil_of_no_toolUse _ hnames0
        rw [hcfg, hcoll]
        rfl
      · rintro ⟨tid0, n0, inp0, hn0, hmem0⟩
        have hmem : n0 ∈ collectToolNames cms := by
          rw [hflat, seenFold_mem n0 hn0]
          exact Or.inr ((toolUseNames_mem _ _).mpr ⟨tid0, inp0, hmem0⟩)
        have hne : ¬(collectToolNames cms).isEmpty := by
          rw [List.isEmpty_iff]
          intro h
          rw [h] at hmem
          cases hmem
        have hnodup : (collectToolNames cms).Nodup := by
          rw [hflat]
          exact seenFold_nodup _ [] List.nodup_nil
        refine ⟨((collectToolNames cms).mergeSort fun a b => decide (a ≤ b)).filter
          (· ≠ ""), ?_, ?_, ?_, ?_⟩
        · rw [hcfg, if_neg hne]
          cases enableCache <;> simp [synthToolEntries]
        · exact (((collectToolNames cms).mergeSort_perm _).nodup_iff.mpr hnodup).filter _
        · have hsorted := @List.sorted_mergeSort String
            (fun a b => decide (a ≤ b))
            (fun a b c hab hbc =>
              decide_eq_true (le_trans (of_decide_eq_true hab) (of_decide_eq_true hbc)))
            (fun a b => by rcases le_total a b with h | h <;> simp [h])
            (collectToolNames cms)
          exact ((hsorted.imp fun h => of_decide_eq_true h).sublist
            (List.filter_sublist _))
        · intro n
          by_cases hn : n = ""
          · subst hn
            simp [List.mem_filter]
          · rw [List.mem_filter]
            constructor
            · rintro ⟨hm, _⟩
              rw [List.mem_mergeSort, hflat, seenFold_mem n hn] at hm
              rcases hm with h | h
              · cases h
              · exact ⟨hn, (toolUseNames_mem _ _).mp h⟩
            · rintro ⟨_, tid, inp, hblk⟩
              refine ⟨?_, decide_eq_true hn⟩
              rw [List.mem_mergeSort, hflat, seenFold_mem n hn]
              exact Or.inr ((toolUseNames_mem _ _).mpr ⟨tid, inp, hblk⟩)

/-- C4 witness: a body without `tools` whose history carries two tool
calls (names `fn_b`, `fn_a`) and one tool result gets a synthesized
`toolConfig` with deduplicated, sorted spec names. -/
theorem toolConfig_synthesis_c4_witness :
    ∃ params, translate_openai_to_converse trivEnv
        { model := "m"
          messages := [
            { role := "assistant", content := .ofStr ""
              tool_calls := some [⟨"t1", "fn_b", "\x7b\x7d"⟩, ⟨"t2", "fn_a", "xyz"⟩] },
            { role := "tool", content := .ofStr "res", tool_call_id := "t1" }] }
        false = some params ∧
      ∃ specNames : List String,
        params.toolConfig = some ((specNames.map fun n =>
            ToolEntry.spec n "Tool from conversation history"
              (JVal.obj [("type", JVal.str "object")])) ++
          (if false then [ToolEntry.cachePoint] else [])) ∧
        specNames.Nodup ∧ List.Pairwise (· ≤ ·) specNames ∧
        (∀ n, n ∈ specNames ↔ n ≠ "" ∧ ∃ tid inp,
          CBlock.toolUse tid n inp ∈ allBlocks params.messages) := by
  refine ⟨_, rfl, (toolConfig_synthesis_c4 trivEnv
      { model := "m"
        messages := [
          { role := "assistant", content := .ofStr ""
            tool_calls := some [⟨"t1", "fn_b", "\x7b\x7d"⟩, ⟨"t2", "fn_a", "xyz"⟩] },
          { role := "tool", content := .ofStr "res", tool_call_id := "t1" }] }
      false _ rfl rfl).2
    ⟨"t1", "fn_b", JVal.obj [("raw", JVal.str "\x7b\x7d")], by decide, ?_⟩⟩
  exact List.mem_cons_self _ _

/-! ## Claim C1: the X-Request-ID response header -/

theorem find_setHeader (hs : List (String × String)) (name v : String) :
    ((setHeader hs name v).find? (fun kv => kv.1 = name)).map (·.2) = some v := by
  simp [setHeader, List.find?_cons]

/-- When the auth middleware passes a request through, only the context
fields change: path and headers are preserved. -/
theorem apiKeyAuthDecide_passThrough_headers (env : PyEnv) (store : KeyStore)
    (cache : KeyCache) (now : Int) (req req' : HttpRequest)
    (h : apiKeyAuthDecide env store cache now req = .passThrough req') :
    req'.headers = req.headers ∧ req'.path = req.path := by
  unfold apiKeyAuthDecide at h
  dsimp only at h
  split at h
  · cases h; exact ⟨rfl, rfl⟩
  · split at h
    · split at h
      · cases h; exact ⟨rfl, rfl⟩
      · cases h; exact ⟨rfl, rfl⟩
    · split at h
      · cases h
      · split at h
        · cases h; exact ⟨rfl, rfl⟩
        · cases h

/-- C1 counterexample: the 426 version-gate rejection is produced by
the outermost middleware and never passes through the logging
middleware, so it carries no `X-Request-ID` header even though the
request supplied one. -/
theorem request_id_c1_counterexample :
    appHandler trivEnv [] [] 0 (some "1.0.0") "" "fresh-uuid"
        (fun _ => { status := 200, headers := [] })
        { path := "/v1/chat/completions"
          headers := [("X-Client-Version", "0.1.0"), ("X-Request-ID", "req-abc")] } =
      { status := 426, headers := [] } ∧
    lookupHeader { status := 426, headers := [] } "X-Request-ID" = none ∧
    headerGet
        { path := "/v1/chat/completions"
          headers := [("X-Client-Version", "0.1.0"), ("X-Request-ID", "req-abc")] }
        "X-Request-ID" = some "req-abc" :=
  ⟨rfl, rfl, rfl⟩

/-- C1 amended: a response that reaches the logging middleware (the
version gate and the authenticator both pass the request through)
carries `X-Request-ID`, echoed from the request when present and the
freshly generated UUID otherwise; the 426 and 401 middleware
short-circuits are emitted outside the logging middleware and carry no
such header. -/
theorem request_id_header_c1 (env : PyEnv) (store : KeyStore) (cache : KeyCache)
    (now : Int) (minimum : Option String) (domain freshUuid : String)
    (routeHandler : Handler) (req : HttpRequest)
    (hgate : versionGate req.path ((headerGet req "X-Client-Version").getD "")
        minimum domain = .pass)
    (hauth : ∃ req', apiKeyAuthDecide env store cache now req = .passThrough req') :
    lookupHeader
        (appHandler env store cache now minimum domain freshUuid routeHandler req)
        "X-Request-ID" =
      some ((headerGet req "X-Request-ID").getD freshUuid) := by
  obtain ⟨req', hreq'⟩ := hauth
  obtain ⟨hh, _⟩ :=
    apiKeyAuthDecide_passThrough_headers env store cache now req req' hreq'
  unfold appHandler version_gate_middleware
  rw [hgate]
  unfold api_key_auth_middleware
  rw [hreq']
  unfold request_logging_middleware
  have hhg : headerGet req' "X-Request-ID" = headerGet req "X-Request-ID" := by
    unfold headerGet
    rw [hh]
  dsimp only
  rw [hhg]
  unfold lookupHeader
  exact find_setHeader _ _ _

/-- C1 witness: a bearer request without an incoming `X-Request-ID`
gets the freshly generated id echoed in the response header. -/
theorem request_id_header_c1_witness :
    lookupHeader
        (appHandler trivEnv [] [] 0 none "" "fresh-uuid"
          (fun _ => { status := 200, headers := [] })
          { path := "/v1/models", headers := [("Authorization", "Bearer tok")] })
        "X-Request-ID" = some "fresh-uuid" :=
  request_id_header_c1 trivEnv [] [] 0 none "" "fresh-uuid"
    (fun _ => { status := 200, headers := [] })
    { path := "/v1/models", headers := [("Authorization", "Bearer tok")] }
    rfl ⟨_, rfl⟩

end Router
